import Mathlib

/-!
Verification development for the axis voice-resampling engine.

The Rust sources are shallowly embedded in Lean: `f64` values are modelled
as exact rationals (every finite `f64` is a rational number), vectors as
`List`, fallible operations as `Option`.  Definitions mirror the source
files function by function; claim-side definitions (written from the
specification's wording, for comparison against the code) are suffixed
`Claim`.
-/

namespace Axis

/-- Rust `x as usize` on a non-negative finite float truncates toward zero;
on a negative float it saturates to 0.  Both behaviours coincide with
`Int.toNat` of the floor for the values reached here. -/
def rustUsize (q : ℚ) : ℕ := ⌊q⌋.toNat

/-- Rounding to the nearest integer (ties up), used by the specification's
wording "round(...)"; the code itself truncates. -/
def roundQ (q : ℚ) : ℤ := ⌊q + 1/2⌋

/-- Truncation toward zero, the semantics of Rust's `as i16` cast fractional
discard. -/
def truncQ (q : ℚ) : ℤ := if q < 0 then -⌊-q⌋ else ⌊q⌋

/-- Rust `f64::clamp(lo, hi)`. -/
def clampQ (x lo hi : ℚ) : ℚ := if x < lo then lo else if hi < x then hi else x

/-- src/util.rs `lerp`. -/
def lerp (a b t : ℚ) : ℚ := a * (1 - t) + b * t

/-- src/util.rs `linspace`. -/
def linspace (a b : ℚ) (num : ℕ) (endpoint : Bool) : List ℚ :=
  if num = 0 then []
  else if num = 1 then [a]
  else
    let step := if endpoint then (b - a) / ((num - 1 : ℕ) : ℚ) else (b - a) / (num : ℚ)
    (List.range num).map (fun i : ℕ => a + (i : ℚ) * step)

/-- src/resampler.rs `FRAME_PERIOD` (milliseconds per analysis frame). -/
def framePeriod : ℚ := 5

/-- Frames per second, `1000.0 / FRAME_PERIOD` in src/resampler.rs. -/
def fps : ℚ := 1000 / framePeriod

/-- The note parameters consumed by the render-timeline builder in
src/resampler.rs.  `velocity` is the already-computed rate multiplier
`2^(1 - velocityPercent/100)` (a finite f64, hence a rational); the witness
instances below use percents 100 and 0, whose rates are exactly 1 and 2. -/
structure NoteParams where
  offset : ℚ
  consonant : ℚ
  length : ℚ
  cutoff : ℚ
  velocity : ℚ

/-- src/resampler.rs line 112: `start = offset / 1000`. -/
def startTime (p : NoteParams) : ℚ := p.offset / 1000

/-- src/resampler.rs line 114: `consonant_src = start + consonant / 1000`. -/
def consonantSrc (p : NoteParams) : ℚ := startTime p + p.consonant / 1000

/-- src/resampler.rs line 113: the end of the source region, for a feature
set of `n` frames (`feature_length_sec = n / fps`). -/
def endTime (p : NoteParams) (n : ℕ) : ℚ :=
  if p.cutoff < 0 then startTime p - p.cutoff / 1000
  else (n : ℚ) / fps - p.cutoff / 1000

/-- src/resampler.rs line 117: `length_req = length / 1000`. -/
def lengthReq (p : NoteParams) : ℚ := p.length / 1000

/-- src/resampler.rs line 116: the consonant segment of the timeline. -/
def tConsonant (p : NoteParams) : List ℚ :=
  linspace (startTime p) (consonantSrc p)
    (rustUsize (p.velocity * p.consonant / framePeriod)) false

/-- src/resampler.rs lines 118-125: the sustain segment.  The branch
condition `stretch_length > length_req` selects a direct truncated slice of
integer frame times; otherwise an endpoint-inclusive linspace. -/
def tStretch (p : NoteParams) (n : ℕ) : List ℚ :=
  if lengthReq p < endTime p n - consonantSrc p then
    (List.range' (rustUsize (consonantSrc p * fps))
        (min (rustUsize (consonantSrc p * fps) + rustUsize (lengthReq p * fps)) (n - 1) -
          rustUsize (consonantSrc p * fps))).map
      (fun i : ℕ => (i : ℚ) / fps)
  else
    linspace (consonantSrc p) (endTime p n) (rustUsize (lengthReq p * fps)) true

/-- src/resampler.rs line 127: concatenate, convert to fractional frame
indices, clamp to `[0, n-1]`. -/
def tRender (p : NoteParams) (n : ℕ) : List ℚ :=
  (tConsonant p ++ tStretch p n).map (fun x => clampQ (x * fps) 0 ((n - 1 : ℕ) : ℚ))

/-- The specification's sustain segment (claim C1 wording): counts and the
start index use rounding, and the truncated slice is clamped to the feature
length `n`. -/
def sustainClaim (p : NoteParams) (n : ℕ) : List ℚ :=
  if lengthReq p < endTime p n - consonantSrc p then
    (List.range' (roundQ (consonantSrc p * fps)).toNat
        (min ((roundQ (consonantSrc p * fps)).toNat + (roundQ (lengthReq p * fps)).toNat) n -
          (roundQ (consonantSrc p * fps)).toNat)).map
      (fun i : ℕ => (i : ℚ) / fps)
  else
    linspace (consonantSrc p) (endTime p n) (roundQ (lengthReq p * fps)).toNat true

/-- src/resampler.rs line 134: voicing per render frame, testing the source
F0 at the truncated (`as usize`) timeline position. -/
def vuvRender (f0feat : List ℚ) (p : NoteParams) : List Bool :=
  (tRender p f0feat.length).map (fun t => decide (f0feat.getD (⌊t⌋.toNat) 0 ≠ 0))

/-- The specification's voicing test (claim C3 wording): the timeline
position is rounded to the nearest frame before the F0 lookup. -/
def vuvClaimRounded (f0feat : List ℚ) (p : NoteParams) : List Bool :=
  (tRender p f0feat.length).map (fun t => decide (f0feat.getD (roundQ t).toNat 0 ≠ 0))

/-- src/resampler.rs lines 162-170: the pitch-curve synthesizer.  `m2h`
stands for the (transcendental) `midi_to_hz`; `pitch`, `modulation`, `pps`
and the interpolated per-frame offsets `f0Off`, times `tSec` are taken as
inputs, exactly as the code has them in scope at this point. -/
def f0Render (m2h : ℚ → ℚ) (pitch modulation pps : ℚ) (pb : List ℚ)
    (vuv : List Bool) (f0Off tSec : List ℚ) : List ℚ :=
  (List.range vuv.length).map (fun i =>
    if vuv.getD i false = false then 0
    else
      let tP := tSec.getD i 0 * pps
      let pbV :=
        if pb.isEmpty then 0
        else
          let idx := ⌊tP⌋.toNat
          if idx + 1 < pb.length then lerp (pb.getD idx 0) (pb.getD (idx + 1) 0) (tP - (idx : ℚ))
          else pb.getLastD 0
      m2h (pitch + pbV + f0Off.getD i 0 * modulation))

/-- Counterexample parameters for claim C1: offset 0 ms, consonant 0 ms,
length 7.5 ms, cutoff 0 ms, velocity rate 1 (velocity percent 100). -/
def pC1 : NoteParams := ⟨0, 0, 15/2, 0, 1⟩

/-- Counterexample parameters for claim C2: offset 0 ms, consonant 9.99 ms,
length 5 ms, cutoff 0 ms, velocity rate 2 (velocity percent 0). -/
def pC2 : NoteParams := ⟨0, 999/100, 5, 0, 2⟩

/-- Counterexample parameters for claim C3: offset 0 ms, consonant 0 ms,
length 100 ms, cutoff 0 ms, velocity rate 1 (velocity percent 100). -/
def pC3 : NoteParams := ⟨0, 0, 100, 0, 1⟩

/-- src/util.rs lines 80-88: the base64-alphabet value of one character
(`A`-`Z` = 0-25, `a`-`z` = 26-51, `0`-`9` = 52-61, `+` = 62, `/` = 63,
anything else 0). -/
def b64Val (c : Char) : ℕ :=
  if 'A' ≤ c ∧ c ≤ 'Z' then c.toNat - 65
  else if 'a' ≤ c ∧ c ≤ 'z' then c.toNat - 97 + 26
  else if '0' ≤ c ∧ c ≤ '9' then c.toNat - 48 + 52
  else if c = '+' then 62
  else if c = '/' then 63
  else 0

/-- src/util.rs lines 79-92: fold the two characters of a pair through
`val = (val << 6) | b64_val`, apply the 12-bit two's-complement adjustment,
divide by 100. -/
def pairSample (c1 c2 : Char) : ℚ :=
  ((if 2047 < ((((0 <<< 6) ||| b64Val c1) <<< 6) ||| b64Val c2 : ℕ) then
      (((((0 <<< 6) ||| b64Val c1) <<< 6) ||| b64Val c2 : ℕ) : ℤ) - 4096
    else ((((0 <<< 6) ||| b64Val c1) <<< 6) ||| b64Val c2 : ℕ)) : ℤ) / 100

/-- src/util.rs line 77: `chars.chunks(2)` with `if pair.len() < 2 break`. -/
def decodePairs : List Char → List ℚ
  | c1 :: c2 :: rest => pairSample c1 c2 :: decodePairs rest
  | _ => []

/-- Decimal digits to a number, `none` when empty or non-digit; models the
digit part of Rust's `str::parse::<usize>`. -/
def digitsVal (cs : List Char) : Option ℕ :=
  if cs = [] then none
  else if cs.all (fun c => c.isDigit) then
    some (cs.foldl (fun a c => 10 * a + (c.toNat - 48)) 0)
  else none

/-- Rust `chunk.parse::<usize>()`: optional leading `+`, then decimal
digits (values beyond `usize::MAX` are modelled as unbounded). -/
def parseUsize : List Char → Option ℕ
  | '+' :: rest => digitsVal rest
  | cs => digitsVal cs

/-- Rust `str::split('#')` on a character list (keeps empty segments,
including a leading/trailing one). -/
def splitHash (cs : List Char) : List (List Char) :=
  cs.foldr
    (fun c acc =>
      match acc with
      | [] => [[c]]
      | a :: rest => if c = '#' then [] :: a :: rest else (c :: a) :: rest)
    [[]]

/-- src/util.rs lines 74-101: the enumerated loop over the `#`-separated
chunks; even chunks decode sample pairs, odd chunks are run-length repeats
of the last decoded value (silently skipped if unparseable or if nothing
was decoded yet). -/
def processChunks : List (List Char) → ℕ → List ℚ → List ℚ
  | [], _, acc => acc
  | ch :: rest, i, acc =>
    if i % 2 = 0 then processChunks rest (i + 1) (acc ++ decodePairs ch)
    else
      match parseUsize ch, acc.getLast? with
      | some rle, some last => processChunks rest (i + 1) (acc ++ List.replicate rle last)
      | _, _ => processChunks rest (i + 1) acc

/-- src/util.rs lines 70-104: `decode_pitchbend`. -/
def decode_pitchbend (s : String) : List ℚ := processChunks (splitHash s.toList) 0 []

/-- The claim C4 wording of the per-character alphabet, written from the
specification's table. -/
def alphaVal (c : Char) : ℕ :=
  if 'A' ≤ c ∧ c ≤ 'Z' then c.toNat - 'A'.toNat
  else if 'a' ≤ c ∧ c ≤ 'z' then c.toNat - 'a'.toNat + 26
  else if '0' ≤ c ∧ c ≤ '9' then c.toNat - '0'.toNat + 52
  else if c = '+' then 62
  else if c = '/' then 63
  else 0

/-- The claim C4 wording of a pair's sample: the two alphabet values
combined into a 12-bit value (high character first), interpreted in
two's complement (subtract 4096 if above 2047), divided by 100. -/
def pairSampleClaim (c1 c2 : Char) : ℚ :=
  ((if 2047 < 64 * alphaVal c1 + alphaVal c2 then
      ((64 * alphaVal c1 + alphaVal c2 : ℕ) : ℤ) - 4096
    else ((64 * alphaVal c1 + alphaVal c2 : ℕ) : ℤ)) : ℤ) / 100

/-- src/vocoder/hmm.rs `VoicingState`. -/
inductive VState where
  | voiced : VState
  | unvoiced : VState
deriving DecidableEq

/-- The four log-domain transition constants of src/vocoder/hmm.rs
(`ln 0.95`, `ln 0.05`, `ln 0.15`, `ln 0.85`).  The compiled f64 constants
are rationals within 1e-15 of the true logarithms; theorems quantify over
any rational values in small intervals around them. -/
structure HmmTrans where
  vv : ℚ
  vu : ℚ
  uv : ℚ
  uu : ℚ

/-- src/vocoder/hmm.rs lines 35-57: `emission_log_prob` with the fixed
F0 floor of 40 Hz. -/
def emissionLogProb (f : ℚ) : VState → ℚ
  | .voiced => if 40 ≤ f then -1/2 else -15
  | .unvoiced => if f < 40 then -1/20 else -8

/-- One forward step of the Viterbi recursion (src/vocoder/hmm.rs lines
78-101).  The Boolean backpointers record whether the best predecessor is
Voiced; Rust's strict `>` update keeps Voiced on ties. -/
def viterbiStep (P : HmmTrans) (sV sU f : ℚ) : (ℚ × ℚ) × (Bool × Bool) :=
  ((( if sV + P.vv < sU + P.uv then sU + P.uv else sV + P.vv) + emissionLogProb f .voiced,
    ((if sV + P.vu < sU + P.uu then sU + P.uu else sV + P.vu) + emissionLogProb f .unvoiced)),
   (!(decide (sV + P.vv < sU + P.uv)), !(decide (sV + P.vu < sU + P.uu))))

/-- The forward pass over the remaining frames, returning final scores and
the backpointer rows for t = 1..n-1. -/
def viterbiForward (P : HmmTrans) : List ℚ → ℚ → ℚ → (ℚ × ℚ) × List (Bool × Bool)
  | [], sV, sU => ((sV, sU), [])
  | f :: rest, sV, sU =>
    ((viterbiForward P rest (viterbiStep P sV sU f).1.1 (viterbiStep P sV sU f).1.2).1,
      (viterbiStep P sV sU f).2 ::
        (viterbiForward P rest (viterbiStep P sV sU f).1.1 (viterbiStep P sV sU f).1.2).2)

/-- src/vocoder/hmm.rs lines 104-113: backtrace from the terminal state
through the backpointer rows (`true` = Voiced). -/
def backtrace (bps : List (Bool × Bool)) (last : Bool) : List Bool :=
  (bps.foldr
      (fun bp st => ((if st.1 then bp.1 else bp.2), (if st.1 then bp.1 else bp.2) :: st.2))
      (last, [last])).2

/-- src/vocoder/hmm.rs lines 60-119: `VoicingHmm::decode`.  Initial scores
favour the state matching frame 0; ties at the terminal comparison pick
Unvoiced (Rust's `if v > u then 0 else 1`). -/
def decodeHmm (P : HmmTrans) : List ℚ → List VState
  | [] => []
  | f :: rest =>
    (backtrace
        (viterbiForward P rest
            ((if 40 ≤ f then (-3/10 : ℚ) else -2) + emissionLogProb f .voiced)
            ((if f < 40 then (-3/10 : ℚ) else -2) + emissionLogProb f .unvoiced)).2
        (decide
          ((viterbiForward P rest
              ((if 40 ≤ f then (-3/10 : ℚ) else -2) + emissionLogProb f .voiced)
              ((if f < 40 then (-3/10 : ℚ) else -2) + emissionLogProb f .unvoiced)).1.2 <
            (viterbiForward P rest
                ((if 40 ≤ f then (-3/10 : ℚ) else -2) + emissionLogProb f .voiced)
                ((if f < 40 then (-3/10 : ℚ) else -2) + emissionLogProb f .unvoiced)).1.1))).map
      (fun b => if b then VState.voiced else VState.unvoiced)

/-- src/vocoder/hmm.rs lines 134-145: interpolation for a frame the HMM
labels Voiced while the detector's F0 is below the floor; nearest
at-or-above-floor neighbours on both sides, linear blend, edge fallbacks. -/
def interpGap (f0s : List ℚ) (i : ℕ) : ℚ :=
  match ((List.range i).reverse).find? (fun j => decide (40 ≤ f0s.getD j 0)),
      (List.range' (i + 1) (f0s.length - (i + 1))).find? (fun j => decide (40 ≤ f0s.getD j 0)) with
  | some p, some nx =>
    f0s.getD p 0 * (1 - ((i - p : ℕ) : ℚ) / ((nx - p : ℕ) : ℚ)) +
      f0s.getD nx 0 * (((i - p : ℕ) : ℚ) / ((nx - p : ℕ) : ℚ))
  | some p, none => f0s.getD p 0
  | none, some nx => f0s.getD nx 0
  | none, none => 0

/-- src/vocoder/hmm.rs lines 127-150: apply the V/UV decision to the raw
F0 sequence. -/
def vuvApply (voicing : List VState) (f0s : List ℚ) : List ℚ :=
  (List.range f0s.length).map (fun i =>
    match voicing.getD i VState.unvoiced with
    | .voiced => if 40 ≤ f0s.getD i 0 then f0s.getD i 0 else interpGap f0s i
    | .unvoiced => 0)

/-- src/vocoder/hmm.rs lines 152-169: radius-2 median filter over positive
values (zero frames are left untouched; the window keeps only positive
entries).  `List.insertionSort` produces the same sorted window as Rust's
stable sort, sortedness being unique for a linear order. -/
def medianPass (f0s : List ℚ) : List ℚ :=
  (List.range f0s.length).map (fun i =>
    if 0 < f0s.getD i 0 then
      if ((f0s.drop (i - 2)).take (min (i + 3) f0s.length - (i - 2))).filter
          (fun x => decide (0 < x)) = [] then f0s.getD i 0
      else
        (((f0s.drop (i - 2)).take (min (i + 3) f0s.length - (i - 2))).filter
              (fun x => decide (0 < x))).insertionSort (· ≤ ·) |>.getD
          ((((f0s.drop (i - 2)).take (min (i + 3) f0s.length - (i - 2))).filter
                (fun x => decide (0 < x))).length / 2) 0
    else f0s.getD i 0)

/-- src/vocoder/hmm.rs lines 122-172: `VoicingHmm::smooth_f0`. -/
def smoothF0 (P : HmmTrans) (f0s : List ℚ) : List ℚ :=
  medianPass (vuvApply (decodeHmm P f0s) f0s)

/-- The raw F0 sequence of the repository's own test
`test_voiced_sequence` (src/vocoder/hmm.rs lines 180-186). -/
def gapInput : List ℚ := [200, 205, 198, 0, 210, 200]

/-- Rational values of the four f64 transition constants, accurate to 1e-4
(used to instantiate the interval-parametrised theorems). -/
def hmmP0 : HmmTrans := ⟨-513/10000, -29957/10000, -18971/10000, -1625/10000⟩

/-- src/vocoder/d4c.rs lines 17-43: `D4C::estimate`.  The FFT computed by
the code does not influence the returned envelope; the output is the
banded constant profile over `fft_size/2+1` bins. -/
def d4cEstimate (sampleRate : ℕ) (f0 : ℚ) (fftSize : ℕ) : List ℚ :=
  if f0 ≤ 40 then List.replicate (fftSize / 2 + 1) 1
  else
    (List.range (fftSize / 2 + 1)).map (fun bin : ℕ =>
      if ((bin : ℚ) * sampleRate / fftSize) < 2000 then 1/200
      else if ((bin : ℚ) * sampleRate / fftSize) < 5000 then 1/50
      else 2/25)

/-- src/resampler.rs lines 145-157: the gender-flag frequency-axis
resample of one envelope row.  `shift` is the computed ratio
`2^(gender/120)` (exactly 2 for gender 120, the witness value). -/
def genderShift (shift : ℚ) (frame : List ℚ) : List ℚ :=
  (List.range frame.length).map (fun i : ℕ =>
    if (⌊(i : ℚ) * shift⌋).toNat < frame.length then
      lerp (frame.getD (⌊(i : ℚ) * shift⌋).toNat 0)
        (frame.getD (min ((⌊(i : ℚ) * shift⌋).toNat + 1) (frame.length - 1)) 0)
        ((i : ℚ) * shift - ((⌊(i : ℚ) * shift⌋).toNat : ℚ))
    else 0)

/-- The claim C7 wording: out-of-range source positions take the nearest
edge bin's value (the source position is clamped to `[0, len-1]` before
interpolating). -/
def genderShiftClaim (shift : ℚ) (frame : List ℚ) : List ℚ :=
  (List.range frame.length).map (fun i : ℕ =>
    lerp (frame.getD (⌊max 0 (min ((i : ℚ) * shift) ((frame.length - 1 : ℕ) : ℚ))⌋).toNat 0)
      (frame.getD
        (min ((⌊max 0 (min ((i : ℚ) * shift) ((frame.length - 1 : ℕ) : ℚ))⌋).toNat + 1)
          (frame.length - 1)) 0)
      (max 0 (min ((i : ℚ) * shift) ((frame.length - 1 : ℕ) : ℚ)) -
        ((⌊max 0 (min ((i : ℚ) * shift) ((frame.length - 1 : ℕ) : ℚ))⌋).toNat : ℚ)))

/-- The filter types used by src/filter.rs (biquad crate `Type<f64>`). -/
inductive BiquadKind where
  | highPass : BiquadKind
  | peakingEQ : ℚ → BiquadKind
  | highShelf : ℚ → BiquadKind

/-- Constructed filter coefficients, kept symbolic: the numeric biquad
coefficient formulas are external-crate code, and no claim depends on
them. -/
structure BiquadParams where
  kind : BiquadKind
  fs : ℚ
  freq : ℚ
  q : ℚ

/-- src/filter.rs lines 13-15 `make_coefficients`, with the failure
condition modelled from the external biquad crate's documented contract:
`Coefficients::from_params` fails iff the cutoff exceeds Nyquist
(`2 * freq > fs`) or `q` is negative. -/
def makeCoefficients (kind : BiquadKind) (fs freq q : ℚ) : Option BiquadParams :=
  if 2 * freq > fs ∨ q < 0 then none else some ⟨kind, fs, freq, q⟩

/-- Run a stateful single-sample filter over a signal (the semantics of
the biquad `run` loop in src/filter.rs line 5). -/
def runFilter {σ : Type} (step : σ → ℚ → ℚ × σ) : σ → List ℚ → List ℚ
  | _, [] => []
  | s, x :: xs => (step s x).1 :: runFilter step (step s x).2 xs

/-- src/filter.rs lines 4-11 `forward_backward_filter`: filter forward,
reset state, reverse, filter again, reset, reverse back. -/
def forwardBackwardFilter {σ : Type} (step : σ → ℚ → ℚ × σ) (s0 : σ) (signal : List ℚ) :
    List ℚ :=
  (runFilter step s0 ((runFilter step s0 signal).reverse)).reverse

/-- src/filter.rs lines 17-39 `apply_vocal_enhancement`.  The numeric
DirectForm1 biquad step and the soft-saturation exponential are
external-crate / transcendental code and are taken as parameters `step`,
`init`, `sat`; the control flow (the three `?` early returns, whose error
leaves the in-place mutations of the earlier stages in the buffer) is the
repository's.  The caller (src/resampler.rs line 208) discards the
`Result`, so the returned list is the buffer the render proceeds with. -/
def applyVocalEnhancement {σ : Type} (step : BiquadParams → σ → ℚ → ℚ × σ)
    (init : BiquadParams → σ) (sat : ℚ → ℚ) (fs : ℚ) (samples : List ℚ) : List ℚ :=
  match makeCoefficients BiquadKind.highPass fs 80 (707/1000) with
  | none => samples
  | some c1 =>
    match makeCoefficients (BiquadKind.peakingEQ (5/2)) fs 3500 1 with
    | none => forwardBackwardFilter (step c1) (init c1) samples
    | some c2 =>
      match makeCoefficients (BiquadKind.highShelf (3/2)) fs 12000 (707/1000) with
      | none =>
        forwardBackwardFilter (step c2) (init c2)
          (forwardBackwardFilter (step c1) (init c1) samples)
      | some c3 =>
        (forwardBackwardFilter (step c3) (init c3)
            (forwardBackwardFilter (step c2) (init c2)
              (forwardBackwardFilter (step c1) (init c1) samples))).map
          (fun x => if 1/1000 < |x| then sat x else x)

/-- src/audio.rs line 165: clamp a sample to `[-1, 1]`
(`sample.max(-1.0).min(1.0)`). -/
def clampSample (s : ℚ) : ℚ := min (max s (-1)) 1

/-- src/audio.rs lines 160-169: the 16-bit PCM data section written by
`write_wav` after the 44-byte header: one silent frame for an empty
sample sequence, otherwise clamp, scale by 32767 and truncate (`as i16`). -/
def wavDataSamples (samples : List ℚ) : List ℤ :=
  if samples = [] then [0]
  else samples.map (fun s => truncQ (clampSample s * 32767))

/-- src/resampler.rs lines 192-196: immediately before synthesis, every
render frame whose final F0 is 0 has its aperiodicity row overwritten
with all ones. -/
def forceUnvoicedAp (f0 : List ℚ) (ap : List (List ℚ)) : List (List ℚ) :=
  (List.range ap.length).map (fun i =>
    if f0.getD i 1 = 0 then List.replicate (ap.getD i []).length 1 else ap.getD i [])

/-! Helper lemmas about the list combinators used by the embedding. -/

theorem linspace_length (a b : ℚ) (num : ℕ) (ep : Bool) : (linspace a b num ep).length = num := by
  unfold linspace
  by_cases h1 : num = 0
  · rw [if_pos h1, h1]
    rfl
  · rw [if_neg h1]
    by_cases h2 : num = 1
    · rw [if_pos h2, h2]
      rfl
    · rw [if_neg h2]
      simp only [List.length_map, List.length_range]

theorem linspace_one (a b : ℚ) (ep : Bool) : linspace a b 1 ep = [a] := by
  unfold linspace
  norm_num

theorem linspace_getD (a b : ℚ) (num : ℕ) (ep : Bool) (j : ℕ) (h2 : 2 ≤ num) (hj : j < num) :
    (linspace a b num ep).getD j 0 =
      a + (j : ℚ) * (if ep then (b - a) / ((num - 1 : ℕ) : ℚ) else (b - a) / (num : ℚ)) := by
  unfold linspace
  rw [if_neg (by omega), if_neg (by omega)]
  rw [List.getD_eq_getElem _ _ (by simp only [List.length_map, List.length_range]; exact hj)]
  rw [List.getElem_map, List.getElem_range]

theorem range'_map_getD {α : Type} (s k j : ℕ) (f : ℕ → α) (d : α) (hj : j < k) :
    ((List.range' s k).map f).getD j d = f (s + j) := by
  rw [List.getD_eq_getElem _ _ (by simp only [List.length_map, List.length_range']; exact hj)]
  rw [List.getElem_map, List.getElem_range']
  simp only [one_mul]

theorem range_map_getD {α : Type} (n j : ℕ) (f : ℕ → α) (d : α) (hj : j < n) :
    ((List.range n).map f).getD j d = f j := by
  rw [List.getD_eq_getElem _ _ (by simp only [List.length_map, List.length_range]; exact hj)]
  rw [List.getElem_map, List.getElem_range]

theorem map_getD {α β : Type} (l : List α) (f : α → β) (i : ℕ) (dA : α) (dB : β)
    (h : i < l.length) : (l.map f).getD i dB = f (l.getD i dA) := by
  rw [List.getD_eq_getElem _ _ (by simpa using h), List.getElem_map,
    List.getD_eq_getElem _ _ h]

/-- C1 (amended): the sustain segment of the render timeline.  In the
truncated branch (`end - consonantSourceTime > targetLength`) it is a
direct contiguous slice of integer frame times starting at
`floor(consonantSourceTime * fps)`, of `floor(targetLength * fps)`
positions, cut off before frame `n - 1`; in the stretched branch it is
`floor(targetLength * fps)` positions linearly spaced over
`[consonantSourceTime, end]`, the last being exactly `end` whenever the
segment has at least two positions (a single-position segment holds only
the left endpoint).  The counts truncate rather than round. -/
theorem C1_sustain_segment (p : NoteParams) (n : ℕ) (hn : 1 ≤ n) :
    (lengthReq p < endTime p n - consonantSrc p →
      (tStretch p n).length =
          min (rustUsize (consonantSrc p * fps) + rustUsize (lengthReq p * fps)) (n - 1) -
            rustUsize (consonantSrc p * fps) ∧
      ∀ j, j < (tStretch p n).length →
        (tStretch p n).getD j 0 = ((rustUsize (consonantSrc p * fps) + j : ℕ) : ℚ) / fps) ∧
    (¬ lengthReq p < endTime p n - consonantSrc p →
      (tStretch p n).length = rustUsize (lengthReq p * fps) ∧
      (rustUsize (lengthReq p * fps) = 1 → tStretch p n = [consonantSrc p]) ∧
      (2 ≤ rustUsize (lengthReq p * fps) →
        (∀ j, j < rustUsize (lengthReq p * fps) →
          (tStretch p n).getD j 0 =
            consonantSrc p +
              (j : ℚ) *
                ((endTime p n - consonantSrc p) /
                  ((rustUsize (lengthReq p * fps) - 1 : ℕ) : ℚ))) ∧
        (tStretch p n).getD (rustUsize (lengthReq p * fps) - 1) 0 = endTime p n)) := by
  constructor
  · intro h
    unfold tStretch
    rw [if_pos h]
    refine ⟨by simp only [List.length_map, List.length_range'], ?_⟩
    intro j hj
    simp only [List.length_map, List.length_range'] at hj
    rw [range'_map_getD _ _ _ _ _ hj]
  · intro h
    unfold tStretch
    rw [if_neg h]
    refine ⟨linspace_length _ _ _ _, ?_, ?_⟩
    · intro h1
      rw [h1, linspace_one]
    · intro h2
      constructor
      · intro j hj
        rw [linspace_getD _ _ _ _ _ h2 hj, if_pos rfl]
      · rw [linspace_getD _ _ _ _ _ h2 (by omega), if_pos rfl]
        have hm1 : (1 : ℕ) ≤ rustUsize (lengthReq p * fps) := by omega
        have hcast : ((rustUsize (lengthReq p * fps) - 1 : ℕ) : ℚ) =
            (rustUsize (lengthReq p * fps) : ℚ) - 1 := by
          rw [Nat.cast_sub hm1]
          norm_num
        rw [hcast]
        have hne : (rustUsize (lengthReq p * fps) : ℚ) - 1 ≠ 0 := by
          have hge : (2 : ℚ) ≤ (rustUsize (lengthReq p * fps) : ℚ) := by exact_mod_cast h2
          intro hh
          linarith
        field_simp

/-- C1 counterexample: with length 7.5 ms on a 10-frame feature set the
code's sustain segment has floor(1.5) = 1 position, while the claim's
rounded count gives 2; the two segments differ. -/
theorem C1_sustain_counterexample :
    tStretch pC1 10 = [0] ∧ sustainClaim pC1 10 = [0, 1/200] ∧
    tStretch pC1 10 ≠ sustainClaim pC1 10 := by
  have h1 : tStretch pC1 10 = [0] := by
    norm_num [tStretch, endTime, consonantSrc, startTime, lengthReq, rustUsize, fps,
      framePeriod, pC1]
  have h2 : sustainClaim pC1 10 = [0, 1/200] := by
    norm_num [sustainClaim, endTime, consonantSrc, startTime, lengthReq, roundQ, fps,
      framePeriod, pC1, List.range']
  refine ⟨h1, h2, ?_⟩
  rw [h1, h2]
  intro h
  simp at h

/-- C1 witness: the amended theorem applied to the counterexample
parameters, giving the truncated branch's single position. -/
theorem C1_sustain_witness : (tStretch pC1 10).length = 1 := by
  have h := (C1_sustain_segment pC1 10 (by norm_num)).1
    (by norm_num [endTime, consonantSrc, startTime, lengthReq, fps, framePeriod, pC1])
  rw [h.1]
  norm_num [rustUsize, consonantSrc, startTime, lengthReq, fps, framePeriod, pC1]

/-- C2 (amended): every element of the render timeline lies in
`[0, n-1]` for a nonempty feature set of `n` frames; the timeline is not
in general monotonically non-decreasing (see the counterexample). -/
theorem C2_timeline_bounds (p : NoteParams) (n : ℕ) (hn : 1 ≤ n) :
    ∀ x ∈ tRender p n, 0 ≤ x ∧ x ≤ ((n - 1 : ℕ) : ℚ) := by
  intro x hx
  unfold tRender at hx
  rw [List.mem_map] at hx
  obtain ⟨y, _, rfl⟩ := hx
  unfold clampQ
  split_ifs with h1 h2
  · exact ⟨le_refl 0, Nat.cast_nonneg _⟩
  · exact ⟨Nat.cast_nonneg _, le_refl _⟩
  · exact ⟨not_lt.1 h1, not_lt.1 h2⟩

/-- C2 counterexample: with offset 0, consonant 9.99 ms, length 5 ms,
cutoff 0, velocity rate 2 on a 10-frame feature set, the timeline is
`[0, 0.666, 1.332, 1]`, which decreases from its third to its fourth
element: the claimed monotonicity fails. -/
theorem C2_timeline_counterexample :
    tRender pC2 10 = [0, 333/500, 333/250, 1] ∧
    ¬ List.Chain' (· ≤ ·) (tRender pC2 10) := by
  have h : tRender pC2 10 = [0, 333/500, 333/250, 1] := by
    norm_num [tRender, tConsonant, tStretch, linspace, endTime, consonantSrc, startTime,
      lengthReq, rustUsize, clampQ, fps, framePeriod, pC2, List.range_succ, List.range',
      show Int.toNat 3 = 3 from rfl]
  refine ⟨h, ?_⟩
  rw [h]
  norm_num [List.chain'_cons]

/-- C2 witness: the bounds theorem applied at the counterexample
parameters, for the element 333/250 of the timeline. -/
theorem C2_timeline_witness : 0 ≤ (333/250 : ℚ) ∧ (333/250 : ℚ) ≤ ((10 - 1 : ℕ) : ℚ) := by
  have he : tRender pC2 10 = [0, 333/500, 333/250, 1] := by
    norm_num [tRender, tConsonant, tStretch, linspace, endTime, consonantSrc, startTime,
      lengthReq, rustUsize, clampQ, fps, framePeriod, pC2, List.range_succ, List.range',
      show Int.toNat 3 = 3 from rfl]
  have hmem : (333/250 : ℚ) ∈ tRender pC2 10 := by
    rw [he]
    norm_num
  exact C2_timeline_bounds pC2 10 (by norm_num) _ hmem

/-- C3 (amended): voicing of render frame `i` is determined by testing the
source F0 at the truncated (floor, Rust `as usize`) timeline position, not
the rounded one; whenever that test says unvoiced, the synthesized F0 for
frame `i` is exactly 0, for every pitch, modulation, pitch-bend curve and
interpolated offset input. -/
theorem C3_voicing_lookup (f0feat : List ℚ) (p : NoteParams) (m2h : ℚ → ℚ)
    (pitch modulation pps : ℚ) (pb f0Off tSec : List ℚ) :
    (∀ i, i < (tRender p f0feat.length).length →
      (vuvRender f0feat p).getD i false =
        decide (f0feat.getD (⌊(tRender p f0feat.length).getD i 0⌋).toNat 0 ≠ 0)) ∧
    (∀ i, i < (vuvRender f0feat p).length →
      (vuvRender f0feat p).getD i false = false →
      (f0Render m2h pitch modulation pps pb (vuvRender f0feat p) f0Off tSec).getD i 0 = 0) := by
  constructor
  · intro i hi
    unfold vuvRender
    rw [map_getD _ _ _ 0 _ hi]
  · intro i hi hfalse
    unfold f0Render
    rw [range_map_getD _ _ _ _ hi, hfalse]
    norm_num

/-- C3 counterexample: stretching a 2-frame feature set `[0, 100]` over a
100 ms note puts render frame 5 at timeline position 10/19 with value 0.526;
the code's truncated lookup reads F0 index 0 (unvoiced), while the claim's
rounded lookup reads index 1 (voiced): the two voicing sequences differ. -/
theorem C3_voicing_counterexample :
    (vuvRender [0, 100] pC3).getD 5 true = false ∧
    (vuvClaimRounded [0, 100] pC3).getD 5 true = true ∧
    vuvRender [0, 100] pC3 ≠ vuvClaimRounded [0, 100] pC3 := by
  have h1 : (vuvRender [0, 100] pC3).getD 5 true = false := by
    norm_num [vuvRender, tRender, tConsonant, tStretch, linspace, endTime, consonantSrc,
      startTime, lengthReq, rustUsize, clampQ, fps, framePeriod, pC3, List.range_succ,
      List.range', roundQ, show Int.toNat 20 = 20 from rfl, List.getD]
  have h2 : (vuvClaimRounded [0, 100] pC3).getD 5 true = true := by
    norm_num [vuvClaimRounded, tRender, tConsonant, tStretch, linspace, endTime,
      consonantSrc, startTime, lengthReq, rustUsize, clampQ, fps, framePeriod, pC3,
      List.range_succ, List.range', roundQ, show Int.toNat 20 = 20 from rfl, List.getD]
  refine ⟨h1, h2, ?_⟩
  intro heq
  rw [heq, h2] at h1
  exact Bool.noConfusion h1

/-- C3 witness: the amended theorem applied at the counterexample input,
showing the output F0 of the unvoiced frame 5 is 0 (with the identity as
the `midi_to_hz` stand-in). -/
theorem C3_voicing_witness :
    (f0Render (fun x => x) 60 0 1 [] (vuvRender [0, 100] pC3) [] []).getD 5 0 = 0 := by
  refine (C3_voicing_lookup [0, 100] pC3 (fun x => x) 60 0 1 [] [] []).2 5 ?_ ?_
  · norm_num [vuvRender, tRender, tConsonant, tStretch, linspace, endTime, consonantSrc,
      startTime, lengthReq, rustUsize, clampQ, fps, framePeriod, pC3, List.range_succ,
      List.range', show Int.toNat 20 = 20 from rfl]
  · norm_num [vuvRender, tRender, tConsonant, tStretch, linspace, endTime, consonantSrc,
      startTime, lengthReq, rustUsize, clampQ, fps, framePeriod, pC3, List.range_succ,
      List.range', show Int.toNat 20 = 20 from rfl, List.getD]

theorem b64Val_lt (c : Char) : b64Val c < 64 := by
  unfold b64Val
  split_ifs with h1 h2 h3 h4 h5
  · have h : c.toNat ≤ 90 := by
      have hh := h1.2
      rw [Char.le_def, UInt32.le_def] at hh
      exact hh
    omega
  · have h : c.toNat ≤ 122 := by
      have hh := h2.2
      rw [Char.le_def, UInt32.le_def] at hh
      exact hh
    omega
  · have h : c.toNat ≤ 57 := by
      have hh := h3.2
      rw [Char.le_def, UInt32.le_def] at hh
      exact hh
    omega
  · omega
  · omega
  · omega

theorem alphaVal_eq_b64Val (c : Char) : alphaVal c = b64Val c := rfl

theorem pairSample_eq_claim (c1 c2 : Char) : pairSample c1 c2 = pairSampleClaim c1 c2 := by
  unfold pairSample pairSampleClaim
  simp only [alphaVal_eq_b64Val]
  have key : ∀ v1 : ℕ, v1 < 64 → ∀ v2 : ℕ, v2 < 64 → ((v1 <<< 6) ||| v2) = 64 * v1 + v2 := by
    decide
  have h0 : ((0 : ℕ) <<< 6) ||| b64Val c1 = b64Val c1 := by
    simp [Nat.zero_shiftLeft]
  rw [h0, key _ (b64Val_lt c1) _ (b64Val_lt c2)]

/-- C4 (confirmed): every two-character pair decodes via the base64
alphabet to the 12-bit two's-complement value divided by 100 exactly as the
claim's formula states, and the two reference vectors hold:
`decode("AAAA") = [0, 0]` and `decode("AAAA#2#") = [0, 0, 0, 0]` (length 4,
the last two samples repeating the previous value). -/
theorem C4_decode_pitchbend_spec :
    (∀ c1 c2 : Char, pairSample c1 c2 = pairSampleClaim c1 c2) ∧
    decode_pitchbend "AAAA" = [0, 0] ∧
    decode_pitchbend "AAAA#2#" = [0, 0, 0, 0] ∧
    (decode_pitchbend "AAAA#2#").length = 4 := by
  have hp : pairSample 'A' 'A' = 0 := by
    have hv : (((0 <<< 6) ||| b64Val 'A') <<< 6) ||| b64Val 'A' = (0 : ℕ) := by decide
    unfold pairSample
    rw [hv]
    norm_num
  have h1 : decode_pitchbend "AAAA" = [pairSample 'A' 'A', pairSample 'A' 'A'] := rfl
  have h2 : decode_pitchbend "AAAA#2#" =
      [pairSample 'A' 'A', pairSample 'A' 'A', pairSample 'A' 'A', pairSample 'A' 'A'] := rfl
  refine ⟨pairSample_eq_claim, ?_, ?_, ?_⟩
  · rw [h1, hp]
  · rw [h2, hp]
  · rw [h2]
    rfl

/-- C4 witness: the pair formula instantiated at a concrete pair. -/
theorem C4_decode_pitchbend_witness : pairSample 'b' '9' = pairSampleClaim 'b' '9' :=
  C4_decode_pitchbend_spec.1 'b' '9'

theorem decodeHmm_gapInput (P : HmmTrans)
    (h1 : -3/50 < P.vv) (h2 : P.vv < -1/20)
    (h3 : -3 < P.vu) (h4 : P.vu < -29/10)
    (h5 : -39/20 < P.uv) (h6 : P.uv < -37/20)
    (h7 : -1/5 < P.uu) (h8 : P.uu < -1/10) :
    decodeHmm P gapInput =
      [VState.voiced, .voiced, .voiced, .unvoiced, .voiced, .voiced] := by
  have hev : emissionLogProb 205 VState.voiced = -1/2 := by norm_num [emissionLogProb]
  have heu : emissionLogProb 205 VState.unvoiced = -8 := by norm_num [emissionLogProb]
  have hev2 : emissionLogProb 198 VState.voiced = -1/2 := by norm_num [emissionLogProb]
  have heu2 : emissionLogProb 198 VState.unvoiced = -8 := by norm_num [emissionLogProb]
  have hev3 : emissionLogProb 0 VState.voiced = -15 := by norm_num [emissionLogProb]
  have heu3 : emissionLogProb 0 VState.unvoiced = -1/20 := by norm_num [emissionLogProb]
  have hev4 : emissionLogProb 210 VState.voiced = -1/2 := by norm_num [emissionLogProb]
  have heu4 : emissionLogProb 210 VState.unvoiced = -8 := by norm_num [emissionLogProb]
  have hev5 : emissionLogProb 200 VState.voiced = -1/2 := by norm_num [emissionLogProb]
  have heu5 : emissionLogProb 200 VState.unvoiced = -8 := by norm_num [emissionLogProb]
  have st1 : viterbiStep P (-4/5) (-10) 205 =
      ((-4/5 + P.vv + -1/2, -4/5 + P.vu + -8), (true, true)) := by
    have hcV : ¬ ((-4/5 : ℚ) + P.vv < -10 + P.uv) := by linarith
    have hcU : ¬ ((-4/5 : ℚ) + P.vu < -10 + P.uu) := by linarith
    unfold viterbiStep
    rw [if_neg hcV, if_neg hcU, decide_eq_false hcV, decide_eq_false hcU, hev, heu]
    rfl
  have st2 : viterbiStep P (-4/5 + P.vv + -1/2) (-4/5 + P.vu + -8) 198 =
      ((-4/5 + P.vv + -1/2 + P.vv + -1/2, -4/5 + P.vv + -1/2 + P.vu + -8), (true, true)) := by
    have hcV : ¬ ((-4/5 + P.vv + -1/2 : ℚ) + P.vv < (-4/5 + P.vu + -8) + P.uv) := by linarith
    have hcU : ¬ ((-4/5 + P.vv + -1/2 : ℚ) + P.vu < (-4/5 + P.vu + -8) + P.uu) := by linarith
    unfold viterbiStep
    rw [if_neg hcV, if_neg hcU, decide_eq_false hcV, decide_eq_false hcU, hev2, heu2]
    rfl
  have st3 : viterbiStep P (-4/5 + P.vv + -1/2 + P.vv + -1/2) (-4/5 + P.vv + -1/2 + P.vu + -8) 0 =
      ((-4/5 + P.vv + -1/2 + P.vv + -1/2 + P.vv + -15,
        -4/5 + P.vv + -1/2 + P.vv + -1/2 + P.vu + -1/20), (true, true)) := by
    have hcV : ¬ ((-4/5 + P.vv + -1/2 + P.vv + -1/2 : ℚ) + P.vv <
        (-4/5 + P.vv + -1/2 + P.vu + -8) + P.uv) := by linarith
    have hcU : ¬ ((-4/5 + P.vv + -1/2 + P.vv + -1/2 : ℚ) + P.vu <
        (-4/5 + P.vv + -1/2 + P.vu + -8) + P.uu) := by linarith
    unfold viterbiStep
    rw [if_neg hcV, if_neg hcU, decide_eq_false hcV, decide_eq_false hcU, hev3, heu3]
    rfl
  have st4 : viterbiStep P (-4/5 + P.vv + -1/2 + P.vv + -1/2 + P.vv + -15)
      (-4/5 + P.vv + -1/2 + P.vv + -1/2 + P.vu + -1/20) 210 =
      ((-4/5 + P.vv + -1/2 + P.vv + -1/2 + P.vu + -1/20 + P.uv + -1/2,
        -4/5 + P.vv + -1/2 + P.vv + -1/2 + P.vu + -1/20 + P.uu + -8), (false, false)) := by
    have hcV : (-4/5 + P.vv + -1/2 + P.vv + -1/2 + P.vv + -15 : ℚ) + P.vv <
        (-4/5 + P.vv + -1/2 + P.vv + -1/2 + P.vu + -1/20) + P.uv := by linarith
    have hcU : (-4/5 + P.vv + -1/2 + P.vv + -1/2 + P.vv + -15 : ℚ) + P.vu <
        (-4/5 + P.vv + -1/2 + P.vv + -1/2 + P.vu + -1/20) + P.uu := by linarith
    unfold viterbiStep
    rw [if_pos hcV, if_pos hcU, decide_eq_true hcV, decide_eq_true hcU, hev4, heu4]
    rfl
  have st5 : viterbiStep P (-4/5 + P.vv + -1/2 + P.vv + -1/2 + P.vu + -1/20 + P.uv + -1/2)
      (-4/5 + P.vv + -1/2 + P.vv + -1/2 + P.vu + -1/20 + P.uu + -8) 200 =
      ((-4/5 + P.vv + -1/2 + P.vv + -1/2 + P.vu + -1/20 + P.uv + -1/2 + P.vv + -1/2,
        -4/5 + P.vv + -1/2 + P.vv + -1/2 + P.vu + -1/20 + P.uv + -1/2 + P.vu + -8),
       (true, true)) := by
    have hcV : ¬ ((-4/5 + P.vv + -1/2 + P.vv + -1/2 + P.vu + -1/20 + P.uv + -1/2 : ℚ) + P.vv <
        (-4/5 + P.vv + -1/2 + P.vv + -1/2 + P.vu + -1/20 + P.uu + -8) + P.uv) := by linarith
    have hcU : ¬ ((-4/5 + P.vv + -1/2 + P.vv + -1/2 + P.vu + -1/20 + P.uv + -1/2 : ℚ) + P.vu <
        (-4/5 + P.vv + -1/2 + P.vv + -1/2 + P.vu + -1/20 + P.uu + -8) + P.uu) := by linarith
    unfold viterbiStep
    rw [if_neg hcV, if_neg hcU, decide_eq_false hcV, decide_eq_false hcU, hev5, heu5]
    rfl
  have vf : viterbiForward P [205, 198, 0, 210, 200] (-4/5) (-10) =
      ((-4/5 + P.vv + -1/2 + P.vv + -1/2 + P.vu + -1/20 + P.uv + -1/2 + P.vv + -1/2,
        -4/5 + P.vv + -1/2 + P.vv + -1/2 + P.vu + -1/20 + P.uv + -1/2 + P.vu + -8),
       [(true, true), (true, true), (true, true), (false, false), (true, true)]) := by
    simp only [viterbiForward, st1, st2, st3, st4, st5]
  have hinitV : ((if (40 : ℚ) ≤ 200 then (-3/10 : ℚ) else -2) +
      emissionLogProb 200 VState.voiced) = -4/5 := by norm_num [emissionLogProb]
  have hinitU : ((if (200 : ℚ) < 40 then (-3/10 : ℚ) else -2) +
      emissionLogProb 200 VState.unvoiced) = -10 := by norm_num [emissionLogProb]
  have hlast : decide
      ((-4/5 + P.vv + -1/2 + P.vv + -1/2 + P.vu + -1/20 + P.uv + -1/2 + P.vu + -8 : ℚ) <
        -4/5 + P.vv + -1/2 + P.vv + -1/2 + P.vu + -1/20 + P.uv + -1/2 + P.vv + -1/2) = true :=
    decide_eq_true (by linarith)
  show decodeHmm P (200 :: [205, 198, 0, 210, 200]) = _
  simp only [decodeHmm]
  rw [hinitV, hinitU, vf, hlast]
  rfl

/-- C5 (code bug): on the raw F0 sequence `[200, 205, 198, 0, 210, 200]`
of the repository's own test `test_voiced_sequence`, the Viterbi decoder
labels the gap frame 3 Unvoiced for any transition constants in small
intervals around the code's `ln 0.95, ln 0.05, ln 0.15, ln 0.85`, so
`smooth_f0` outputs 0 there — the claim (and the test's assertion
`smoothed[3] > 0`) says the gap is interpolated to a positive value. -/
theorem C5_voicing_smoother_gap (P : HmmTrans)
    (h1 : -3/50 < P.vv) (h2 : P.vv < -1/20)
    (h3 : -3 < P.vu) (h4 : P.vu < -29/10)
    (h5 : -39/20 < P.uv) (h6 : P.uv < -37/20)
    (h7 : -1/5 < P.uu) (h8 : P.uu < -1/10) :
    smoothF0 P gapInput = [200, 200, 205, 0, 200, 210] ∧
    (smoothF0 P gapInput).getD 3 0 = 0 := by
  have hdec := decodeHmm_gapInput P h1 h2 h3 h4 h5 h6 h7 h8
  have hs : smoothF0 P gapInput = [200, 200, 205, 0, 200, 210] := by
    unfold smoothF0
    rw [hdec]
    norm_num [vuvApply, medianPass, interpGap, gapInput, List.range_succ, List.getD,
      List.insertionSort, List.orderedInsert, List.filter, List.find?]
  refine ⟨hs, ?_⟩
  rw [hs]
  rfl

/-- C5 witness: the theorem instantiated at rational approximations of the
code's four logarithmic constants (accurate to 1e-4, inside the intervals
containing the exact f64 values). -/
theorem C5_voicing_smoother_witness :
    smoothF0 hmmP0 gapInput = [200, 200, 205, 0, 200, 210] :=
  (C5_voicing_smoother_gap hmmP0 (by norm_num [hmmP0]) (by norm_num [hmmP0])
    (by norm_num [hmmP0]) (by norm_num [hmmP0]) (by norm_num [hmmP0])
    (by norm_num [hmmP0]) (by norm_num [hmmP0]) (by norm_num [hmmP0])).1

/-- C6 (amended): for F0 at or below the 40 Hz floor the aperiodicity
estimate is an all-ones envelope of `fft_size/2+1` bins; otherwise it is a
per-bin ratio taking the banded values 0.005 / 0.02 / 0.08, all within
`[0, 1]` and monotonically non-decreasing in frequency — the high bands sit
at 0.08, not near 0.8. -/
theorem C6_aperiodicity_envelope (sampleRate : ℕ) (f0 : ℚ) (fftSize : ℕ) (hf : 0 < fftSize) :
    (f0 ≤ 40 → d4cEstimate sampleRate f0 fftSize = List.replicate (fftSize / 2 + 1) 1) ∧
    (¬ f0 ≤ 40 →
      (d4cEstimate sampleRate f0 fftSize).length = fftSize / 2 + 1 ∧
      (∀ x ∈ d4cEstimate sampleRate f0 fftSize, 0 ≤ x ∧ x ≤ 1) ∧
      (∀ i j : ℕ, i ≤ j → j < fftSize / 2 + 1 →
        (d4cEstimate sampleRate f0 fftSize).getD i 0 ≤
          (d4cEstimate sampleRate f0 fftSize).getD j 0)) := by
  constructor
  · intro h
    unfold d4cEstimate
    rw [if_pos h]
  · intro h
    unfold d4cEstimate
    rw [if_neg h]
    refine ⟨by simp only [List.length_map, List.length_range], ?_, ?_⟩
    · intro x hx
      rw [List.mem_map] at hx
      obtain ⟨b, _, rfl⟩ := hx
      split_ifs <;> norm_num
    · intro i j hij hj
      rw [range_map_getD _ _ _ _ (by omega), range_map_getD _ _ _ _ hj]
      have hij' : (i : ℚ) ≤ (j : ℚ) := by exact_mod_cast hij
      have hfft : (0 : ℚ) < (fftSize : ℚ) := by exact_mod_cast hf
      have hfreq : (i : ℚ) * (sampleRate : ℚ) / (fftSize : ℚ) ≤
          (j : ℚ) * (sampleRate : ℚ) / (fftSize : ℚ) :=
        (div_le_div_iff_of_pos_right hfft).mpr
          (mul_le_mul_of_nonneg_right hij' (Nat.cast_nonneg _))
      split_ifs <;> linarith

/-- C6 counterexample: at 44100 Hz, F0 = 100 Hz, fft_size = 8, the envelope
is `[0.005, 0.08, 0.08, 0.08, 0.08]`; every bin is at most 0.08, so no high
band approaches the claimed ~0.8. -/
theorem C6_aperiodicity_counterexample :
    d4cEstimate 44100 100 8 = [1/200, 2/25, 2/25, 2/25, 2/25] ∧
    (∀ x ∈ d4cEstimate 44100 100 8, x ≤ 2/25) ∧
    ¬ ∃ x ∈ d4cEstimate 44100 100 8, (7/10 : ℚ) ≤ x := by
  have h : d4cEstimate 44100 100 8 = [1/200, 2/25, 2/25, 2/25, 2/25] := by
    norm_num [d4cEstimate, List.range_succ]
  refine ⟨h, ?_, ?_⟩
  · rw [h]
    intro x hx
    fin_cases hx <;> norm_num
  · rw [h]
    rintro ⟨x, hx, hge⟩
    fin_cases hx <;> norm_num at hge

/-- C6 witness: the amended theorem applied at concrete inputs, giving
monotonicity between the first and last bin. -/
theorem C6_aperiodicity_witness :
    (d4cEstimate 44100 100 8).getD 0 0 ≤ (d4cEstimate 44100 100 8).getD 4 0 :=
  ((C6_aperiodicity_envelope 44100 100 8 (by norm_num)).2 (by norm_num)).2.2 0 4
    (by norm_num) (by norm_num)

/-- C7 (amended): the gender transform resamples each row by the ratio
`shift = 2^(gender/120)` with linear interpolation between adjacent bins;
the upper interpolation neighbour is clamped to the last bin, but a source
position whose floor index reaches past the row produces 0.0 — not the
edge bin's value. -/
theorem C7_gender_resample (shift : ℚ) (frame : List ℚ) :
    (genderShift shift frame).length = frame.length ∧
    (∀ i, i < frame.length → (⌊(i : ℚ) * shift⌋).toNat + 1 < frame.length →
      (genderShift shift frame).getD i 0 =
        lerp (frame.getD (⌊(i : ℚ) * shift⌋).toNat 0)
          (frame.getD ((⌊(i : ℚ) * shift⌋).toNat + 1) 0)
          ((i : ℚ) * shift - ((⌊(i : ℚ) * shift⌋).toNat : ℚ))) ∧
    (∀ i, i < frame.length → (⌊(i : ℚ) * shift⌋).toNat = frame.length - 1 →
      (genderShift shift frame).getD i 0 = frame.getD (frame.length - 1) 0) ∧
    (∀ i, i < frame.length → frame.length ≤ (⌊(i : ℚ) * shift⌋).toNat →
      (genderShift shift frame).getD i 0 = 0) := by
  refine ⟨by simp only [genderShift, List.length_map, List.length_range], ?_, ?_, ?_⟩
  · intro i hi hlt
    unfold genderShift
    rw [range_map_getD _ _ _ _ hi]
    rw [if_pos (by omega), min_eq_left (by omega)]
  · intro i hi heq
    unfold genderShift
    rw [range_map_getD _ _ _ _ hi]
    rw [if_pos (by omega), heq, min_eq_right (by omega)]
    unfold lerp
    ring
  · intro i hi hge
    unfold genderShift
    rw [range_map_getD _ _ _ _ hi]
    rw [if_neg (by omega)]

/-- C7 counterexample: gender 120 gives shift exactly 2; on the row
`[1, 1, 1, 1]` the code produces `[1, 1, 0, 0]` (zeros beyond the end)
while the claimed edge-clamped resample keeps `[1, 1, 1, 1]`. -/
theorem C7_gender_counterexample :
    genderShift 2 [1, 1, 1, 1] = [1, 1, 0, 0] ∧
    genderShiftClaim 2 [1, 1, 1, 1] = [1, 1, 1, 1] ∧
    genderShift 2 [1, 1, 1, 1] ≠ genderShiftClaim 2 [1, 1, 1, 1] := by
  have h1 : genderShift 2 [1, 1, 1, 1] = [1, 1, 0, 0] := by
    norm_num [genderShift, lerp, List.range_succ, List.getD,
      show Int.toNat 2 = 2 from rfl, show Int.toNat 3 = 3 from rfl,
      show Int.toNat 4 = 4 from rfl, show Int.toNat 6 = 6 from rfl]
  have h2 : genderShiftClaim 2 [1, 1, 1, 1] = [1, 1, 1, 1] := by
    norm_num [genderShiftClaim, lerp, List.range_succ, List.getD,
      show Int.toNat 2 = 2 from rfl, show Int.toNat 3 = 3 from rfl,
      show Int.toNat 4 = 4 from rfl, show Int.toNat 6 = 6 from rfl]
  refine ⟨h1, h2, ?_⟩
  rw [h1, h2]
  intro h
  simp at h

/-- C7 witness: the amended theorem applied at shift 2 on a 4-bin row,
position 3 (source position 6, out of range, hence 0). -/
theorem C7_gender_witness : (genderShift 2 [1, 1, 1, 1]).getD 3 0 = 0 := by
  refine (C7_gender_resample 2 [1, 1, 1, 1]).2.2.2 3 (by norm_num) ?_
  norm_num

/-- C8 (amended): the render always proceeds (the enhancement `Result` is
discarded by the caller); if the first coefficient construction fails the
buffer passes through unmodified, but if a later construction fails the
filters already constructed have been applied in place, so the buffer is
not identical to its pre-enhancement state. -/
theorem C8_enhancement_stages {σ : Type} (step : BiquadParams → σ → ℚ → ℚ × σ)
    (init : BiquadParams → σ) (sat : ℚ → ℚ) (fs : ℚ) (samples : List ℚ) :
    (makeCoefficients BiquadKind.highPass fs 80 (707/1000) = none →
      applyVocalEnhancement step init sat fs samples = samples) ∧
    (∀ c1, makeCoefficients BiquadKind.highPass fs 80 (707/1000) = some c1 →
      makeCoefficients (BiquadKind.peakingEQ (5/2)) fs 3500 1 = none →
      applyVocalEnhancement step init sat fs samples =
        forwardBackwardFilter (step c1) (init c1) samples) ∧
    (∀ c1 c2, makeCoefficients BiquadKind.highPass fs 80 (707/1000) = some c1 →
      makeCoefficients (BiquadKind.peakingEQ (5/2)) fs 3500 1 = some c2 →
      makeCoefficients (BiquadKind.highShelf (3/2)) fs 12000 (707/1000) = none →
      applyVocalEnhancement step init sat fs samples =
        forwardBackwardFilter (step c2) (init c2)
          (forwardBackwardFilter (step c1) (init c1) samples)) := by
  refine ⟨?_, ?_, ?_⟩
  · intro h
    unfold applyVocalEnhancement
    rw [h]
  · intro c1 hc1 hc2
    unfold applyVocalEnhancement
    rw [hc1, hc2]
  · intro c1 c2 hc1 hc2 hc3
    unfold applyVocalEnhancement
    rw [hc1, hc2, hc3]

/-- C8 counterexample: at 22050 Hz the high-shelf construction at 12 kHz
fails (beyond Nyquist) after the high-pass and peaking filters succeeded;
with a doubling filter standing in for the external biquad, the buffer
`[1]` comes out as `[16]`, not unmodified. -/
theorem C8_enhancement_counterexample :
    makeCoefficients (BiquadKind.highShelf (3/2)) 22050 12000 (707/1000) = none ∧
    applyVocalEnhancement (σ := Unit) (fun _ _ x => (2 * x, ())) (fun _ => ()) id 22050 [1] =
      [16] ∧
    ([16] : List ℚ) ≠ [1] := by
  refine ⟨?_, ?_, by norm_num⟩
  · norm_num [makeCoefficients]
  · norm_num [applyVocalEnhancement, makeCoefficients, forwardBackwardFilter, runFilter]

/-- C8 witness: the amended theorem applied at 100 Hz sampling rate, where
already the first (80 Hz high-pass) construction fails and the buffer is
untouched. -/
theorem C8_enhancement_witness :
    applyVocalEnhancement (σ := Unit) (fun _ _ x => (2 * x, ())) (fun _ => ()) id 100 [1, 2] =
      [1, 2] :=
  (C8_enhancement_stages (fun _ _ x => (2 * x, ())) (fun _ => ()) id 100 [1, 2]).1
    (by norm_num [makeCoefficients])

theorem truncQ_le_of_le (q : ℚ) (h : q ≤ 32767) : truncQ q ≤ 32767 := by
  unfold truncQ
  split_ifs with hneg
  · have h0 : (0 : ℤ) ≤ ⌊-q⌋ := Int.floor_nonneg.mpr (by linarith)
    omega
  · have := Int.floor_le_floor h
    simpa using this

theorem truncQ_ge_of_ge (q : ℚ) (h : -32767 ≤ q) : -32767 ≤ truncQ q := by
  unfold truncQ
  split_ifs with hneg
  · have := Int.floor_le_floor (show -q ≤ (32767 : ℚ) by linarith)
    have h2 : ⌊(32767 : ℚ)⌋ = 32767 := by norm_num
    omega
  · have h0 : (0 : ℤ) ≤ ⌊q⌋ := Int.floor_nonneg.mpr (by linarith)
    omega

/-- C9 (confirmed): each 16-bit value written to the data section is the
sample clamped to `[-1, 1]`, scaled by 32767 and truncated — always within
the 16-bit range — and an empty sample sequence writes exactly one silent
frame. -/
theorem C9_wav_data (samples : List ℚ) :
    (samples = [] → wavDataSamples samples = [0]) ∧
    (samples ≠ [] →
      (wavDataSamples samples).length = samples.length ∧
      ∀ i, i < samples.length →
        (wavDataSamples samples).getD i 0 = truncQ (clampSample (samples.getD i 0) * 32767) ∧
        -32767 ≤ (wavDataSamples samples).getD i 0 ∧
        (wavDataSamples samples).getD i 0 ≤ 32767) := by
  constructor
  · intro h
    unfold wavDataSamples
    rw [if_pos h]
  · intro h
    unfold wavDataSamples
    rw [if_neg h]
    refine ⟨List.length_map _ _, ?_⟩
    intro i hi
    rw [map_getD _ _ _ 0 _ hi]
    have hcl : -1 ≤ clampSample (samples.getD i 0) ∧ clampSample (samples.getD i 0) ≤ 1 := by
      unfold clampSample
      constructor
      · exact le_min (le_max_right _ _) (by norm_num)
      · exact min_le_right _ _
    refine ⟨rfl, ?_, ?_⟩
    · exact truncQ_ge_of_ge _ (by nlinarith [hcl.1, hcl.2])
    · exact truncQ_le_of_le _ (by nlinarith [hcl.1, hcl.2])

/-- C9 witness: the theorem applied to the one-sample sequence `[1.5]`
(clamped to 1, written as 32767). -/
theorem C9_wav_data_witness :
    (wavDataSamples [3/2]).getD 0 0 = truncQ (clampSample ((3 : ℚ)/2) * 32767) ∧
    -32767 ≤ (wavDataSamples [3/2]).getD 0 0 ∧ (wavDataSamples [3/2]).getD 0 0 ≤ 32767 := by
  have h := (C9_wav_data [3/2]).2 (by norm_num) |>.2 0 (by norm_num)
  simpa using h

/-- C10 (confirmed): immediately before synthesis, a render frame whose
final F0 is 0 has its entire aperiodicity row forced to 1.0, and frames
with nonzero F0 keep their rows unchanged. -/
theorem C10_unvoiced_ap (f0 : List ℚ) (ap : List (List ℚ)) (hlen : f0.length = ap.length) :
    (forceUnvoicedAp f0 ap).length = ap.length ∧
    (∀ i, i < ap.length → f0.getD i 1 = 0 →
      (forceUnvoicedAp f0 ap).getD i [] = List.replicate (ap.getD i []).length 1 ∧
      ∀ j, j < (ap.getD i []).length → ((forceUnvoicedAp f0 ap).getD i []).getD j 0 = 1) ∧
    (∀ i, i < ap.length → f0.getD i 1 ≠ 0 →
      (forceUnvoicedAp f0 ap).getD i [] = ap.getD i []) := by
  refine ⟨by simp only [forceUnvoicedAp, List.length_map, List.length_range], ?_, ?_⟩
  · intro i hi hz
    have he : (forceUnvoicedAp f0 ap).getD i [] = List.replicate (ap.getD i []).length 1 := by
      unfold forceUnvoicedAp
      rw [range_map_getD _ _ _ _ hi, if_pos hz]
    refine ⟨he, ?_⟩
    intro j hj
    rw [he, List.getD_eq_getElem _ _ (by simpa using hj), List.getElem_replicate]
  · intro i hi hz
    unfold forceUnvoicedAp
    rw [range_map_getD _ _ _ _ hi, if_neg hz]

/-- C10 witness: the theorem applied to a 2-frame feature pair where frame
0 is unvoiced; its aperiodicity row entries become 1. -/
theorem C10_unvoiced_ap_witness :
    ((forceUnvoicedAp [0, 5] [[1/2, 1/3], [1/2, 1/3]]).getD 0 []).getD 1 0 = 1 := by
  refine ((C10_unvoiced_ap [0, 5] [[1/2, 1/3], [1/2, 1/3]] rfl).2.1 0 (by norm_num) ?_).2 1 ?_
  · norm_num [List.getD]
  · norm_num [List.getD]

end Axis
